import Mathlib

/-!
Verification of the SVL trace-delta replay engine of `src/renderer/manim_renderer.py`
(`SVLManimRenderer`).  The engine's observable state consists of the typed
data-state (`current_data_state`), the auxiliary views (`current_aux_views`),
the variable map (`current_variables`), and the per-delta annotation state
(`temp_elements`, `dependencies`, `current_comment_text`).  Rendering-only
artifacts of the scene class (mobject caches, colors, layout, `self.play`
calls) are presentation and are not part of the replayed state, so they are
not modelled.  JSON scalar values are modelled by `Val`; dictionary-key
presence is modelled with `Option` where a handler tests it; Python string
truthiness (`if s:`) is modelled by `truthy`.
-/

namespace SVL

/-- A JSON scalar value as carried by trace operations (values compared with
Python `==` are structural, which `DecidableEq` mirrors). -/
inductive Val where
  | null : Val
  | bool (b : Bool) : Val
  | int (n : Int) : Val
  | str (s : String) : Val
deriving DecidableEq

/-- Python string truthiness of an optional string: `None` and `""` are falsy. -/
def truthy : Option String → Bool
  | none => false
  | some s => !s.isEmpty

/-- One element of an `array` data-state: a dict with `index`, `value`,
`state` keys (`state` holds the current style key; it may be set to a missing
`styleKey`, hence `Option`). -/
structure ArrElem where
  index : Int
  value : Val
  state : Option String
deriving DecidableEq

/-- A graph/tree node dict.  `label`, `properties`, `children` model key
presence with `Option` because `_animate_swap_nodes` tests `"label" in node`
etc.; `parent` is the tree parent reference (`None`/missing collapse). -/
structure Node where
  id : String
  label : Option Val := none
  styleKey : Option String := none
  properties : Option (List (String × Val)) := none
  parent : Option String := none
  children : Option (List String) := none
deriving DecidableEq

/-- A graph edge dict; `src`/`dst` model the `from`/`to` keys (which
`edge.get` reads and may be missing). -/
structure Edge where
  src : Option String
  dst : Option String
  directed : Bool := false
  label : Option Val := none
  styleKey : Option String := none
deriving DecidableEq

/-- A key/value item within one hashtable bucket. -/
structure Item where
  key : Val
  value : Val
deriving DecidableEq

/-- One hashtable bucket; a missing `items` key is modelled as the empty
list (the handlers `setdefault`/default it to `[]` before use). -/
structure Bucket where
  index : Int := 0
  items : List Item := []
deriving DecidableEq

/-- The `structure` sub-dict of the data-state: `root`/`nodes`/`edges` for
graph and tree variants, `size`/`buckets` for the hashtable variant. -/
structure Structure where
  root : Option String := none
  nodes : List Node := []
  edges : List Edge := []
  size : Int := 0
  buckets : List Bucket := []
deriving DecidableEq

/-- Backing data of an auxiliary view: a flat list of values, a dict of named
sub-lists, or the 2-D grid of a table view (in Python all three live behind
the same `data` key; the typed split follows the data model of the trace
format). -/
inductive AuxData where
  | flat (items : List Val) : AuxData
  | keyed (entries : List (String × List Val)) : AuxData
  | rows (grid : List (List Val)) : AuxData
deriving DecidableEq

/-- An auxiliary view dict (`view_id`, `type`, `title`, `data`). -/
structure AuxView where
  view_id : Option String
  vtype : String
  title : Option String := none
  data : AuxData
deriving DecidableEq

/-- `current_data_state`: the `type` tag plus the per-variant payload fields
of the dict (`data` list for arrays, `structure` for graph/tree/hashtable,
`data`/`view_id` for tables).  Rendering-only keys (`title`, `options`) are
omitted. -/
structure DataState where
  dtype : String
  arr : List ArrElem := []
  struct : Structure := {}
  tableData : List (List Val) := []
  tableViewId : Option String := none
deriving DecidableEq

/-- A transient annotation recorded in `self.temp_elements`. -/
inductive TempElem where
  | boundaryBox (originalType : Option String) (lo hi : Int)
      (styleKey : Option String) (label : Option String) : TempElem
  | arrayCompare (pairs : List (Int × Int)) (styleKey : Option String) : TempElem
  | swapArrows (pairs : List (Int × Int)) (styleKey : Option String) : TempElem
  | arrayChangeFlash (indices : List Int) (styleKey : Option String) : TempElem
  | tableHighlight (view_id : Option String) (styleKey : Option String)
      (cells : List (Int × Int)) : TempElem
deriving DecidableEq

/-- Whether a temp element survives the per-delta reset
(`[e for e in self.temp_elements if e.get("type") == "boundary_box"]`). -/
def TempElem.isBoundaryBox : TempElem → Bool
  | .boundaryBox _ _ _ _ _ => true
  | _ => false

/-- A `showDependency` params dict as stored verbatim in `self.dependencies`. -/
structure DepParams where
  view_id : Option String := none
  toCell : Option (Int × Int) := none
  fromCells : List (Int × Int) := []
  styleKey : Option String := none
deriving DecidableEq

/-- The full observable replay state of `SVLManimRenderer`. -/
structure RState where
  dataType : String
  ds : DataState
  auxViews : List AuxView := []
  vars : List (String × Val) := []
  temps : List TempElem := []
  deps : List DepParams := []
  comment : Option String := none
  fastMode : Bool := false
deriving DecidableEq

/-- A `pairs` entry of `moveElements` (and a `shifts` entry of
`shiftElements`): the `fromIndex`/`toIndex` keys. -/
structure MovePair where
  fromIndex : Option Int
  toIndex : Option Int
deriving DecidableEq

/-- An `updates` entry of `updateValues`. -/
structure UpdateVal where
  index : Option Int
  value : Val
deriving DecidableEq

/-- An `updates` entry of `updateTableCell`. -/
structure CellUpdate where
  row : Option Int
  col : Option Int
  value : Val
deriving DecidableEq

/-- The operation vocabulary, one constructor per key of the dispatch table
`op_map` in `_process_operation_with_animation`, plus `unknown` for every
operation name outside the table (which falls through to
`_apply_operation_silent`). -/
inductive Op where
  | updateStyle (styleKey : Option String) (indices : List Int) : Op
  | moveElements (pairs : List MovePair) (animationKey : Option String)
      (styleKey : Option String) : Op
  | shiftElements (shifts : List MovePair) (animationKey : Option String)
      (styleKey : Option String) : Op
  | updateValues (updates : List UpdateVal) (styleKey : Option String) : Op
  | updateNodeStyle (ids : List String) (styleKey : Option String) : Op
  | updateNodeProperties (updates : List (Option String × List (String × Val))) : Op
  | updateEdgeStyle (edges : List (Option String × Option String))
      (styleKey : Option String) : Op
  | updateTableCell (view_id : Option String) (updates : List CellUpdate) : Op
  | highlightTableCell (view_id : Option String) (styleKey : Option String)
      (cells : List (Int × Int)) : Op
  | showDependency (p : DepParams) : Op
  | updateBoundary (btype : Option String) (lo hi : Int)
      (styleKey : Option String) (label : Option String) : Op
  | removeBoundary (btype : Option String) : Op
  | addNode (node : Option Node) : Op
  | removeNode (id : Option String) : Op
  | addEdge (edge : Option Edge) : Op
  | removeEdge (src dst : Option String) : Op
  | addAuxView (view : Option AuxView) : Op
  | removeAuxView (view_id : Option String) : Op
  | appendToList (view_id : Option String) (value : Val)
      (list_key : Option String) : Op
  | popFromList (view_id : Option String) (whereFrom : Option String)
      (index : Option Int) (value : Option Val) (list_key : Option String) : Op
  | clearList (view_id : Option String) : Op
  | insertIntoBucket (bucket_index : Option Int) (element : Option Item) : Op
  | updateInBucket (bucket_index : Option Int) (key : Option Val) (value : Val) : Op
  | removeFromBucket (bucket_index : Option Int) (key : Option Val) : Op
  | showHash : Op
  | highlightCollision : Op
  | highlightBucket : Op
  | showComment (text : Option String) : Op
  | addChild (parent_id : Option String) (node : Option Node)
      (index : Option Int) : Op
  | removeChild (parent_id : Option String) (child_id : Option String) : Op
  | reparent (node_id : Option String) (new_parent_id : Option String)
      (index : Option Int) : Op
  | swapNodes (a_id : Option String) (b_id : Option String)
      (swap_children : Bool) : Op
  | highlightPath : Op
  | unknown (name : String) : Op
deriving DecidableEq

/-- One delta: the `meta` variable updates and the ordered operation groups
(`code_highlight` is rendering-only). -/
structure Delta where
  meta : List (String × Val) := []
  operations : List (List Op) := []
deriving DecidableEq

/-! ### List helpers mirroring the Python loop idioms -/

/-- Apply `f` to the first element satisfying `p` (a `for`-loop that mutates
one entry and `break`s). -/
def update_first {α : Type} (p : α → Prop) [DecidablePred p] (f : α → α) :
    List α → List α
  | [] => []
  | x :: xs => if p x then f x :: xs else x :: update_first p f xs

/-- Apply `f` to the last element satisfying `p` (mutation through a dict
comprehension `{n["id"]: n for n in nodes}`, where the last entry wins). -/
def update_last {α : Type} (p : α → Prop) [DecidablePred p] (f : α → α)
    (l : List α) : List α :=
  (update_first p f l.reverse).reverse

/-- First element satisfying `p` (a search loop with `break`). -/
def find_first {α : Type} (p : α → Prop) [DecidablePred p] : List α → Option α
  | [] => none
  | x :: xs => if p x then some x else find_first p xs

/-- Python `d[k] = v` on an ordered dict: update in place if the key exists,
append otherwise. -/
def dict_set {β : Type} (k : String) (v : β) : List (String × β) → List (String × β)
  | [] => [(k, v)]
  | kv :: rest => if kv.1 = k then (k, v) :: rest else kv :: dict_set k v rest

/-- Python `base.update(upd)` on an ordered dict. -/
def dict_update {β : Type} (base upd : List (String × β)) : List (String × β) :=
  upd.foldl (fun m kv => dict_set kv.1 kv.2 m) base

/-- Insertion sort of `Int`s, modelling Python `sorted`. -/
def insert_sorted (x : Int) : List Int → List Int
  | [] => [x]
  | y :: ys => if x ≤ y then x :: y :: ys else y :: insert_sorted x ys

/-- Python `sorted(set(l))`: ascending distinct values. -/
def sorted_dedup (l : List Int) : List Int := l.dedup.foldr insert_sorted []

/-- All ordered pairs `(l[x], l[y])` with `x < y`, in the nested-loop order of
`_animate_update_style`. -/
def ordered_pairs : List Int → List (Int × Int)
  | [] => []
  | x :: xs => xs.map (fun y => (x, y)) ++ ordered_pairs xs

/-! ### Operation handlers (`_animate_*` methods, state-mutation part only) -/

/-- The merge predicate of `_animate_update_style`: an existing
`array_compare` temp element with the same style key. -/
def TempElem.isCompareWith (styleKey : Option String) : TempElem → Prop
  | .arrayCompare _ sk => sk = styleKey
  | _ => False

instance (styleKey : Option String) :
    DecidablePred (TempElem.isCompareWith styleKey) := fun t =>
  match t with
  | .arrayCompare _ sk => inferInstanceAs (Decidable (sk = styleKey))
  | .boundaryBox _ _ _ _ _ => .isFalse id
  | .swapArrows _ _ => .isFalse id
  | .arrayChangeFlash _ _ => .isFalse id
  | .tableHighlight _ _ _ => .isFalse id

/-- `_animate_update_style`: set the per-index `state` tag and, for a
`*compare*`-named style on two or more valid indices, record comparison-pair
annotations capped at 6 pairs, merging into an existing `array_compare`
element with the same style key. -/
def animate_update_style (s : RState) (styleKey : Option String)
    (indices : List Int) : RState :=
  if s.dataType ≠ "array" then s
  else if s.ds.arr = [] then s
  else
    let arr := indices.foldl (fun (a : List ArrElem) i =>
      if 0 ≤ i ∧ i < (a.length : Int) then
        match a[i.toNat]? with
        | some e => a.set i.toNat { e with state := styleKey }
        | none => a
      else a) s.ds.arr
    let skLower := (styleKey.getD "").toLower
    let temps :=
      if (skLower.splitOn "compare").length > 1 ∧ indices.length ≥ 2 then
        let valid := indices.filter (fun i => 0 ≤ i ∧ i < (arr.length : Int))
        if valid.length ≥ 2 then
          let pairs := (ordered_pairs (sorted_dedup valid)).take 6
          if pairs ≠ [] then
            if ∃ t ∈ s.temps, TempElem.isCompareWith styleKey t then
              update_first (TempElem.isCompareWith styleKey)
                (fun t => match t with
                  | .arrayCompare ps sk => .arrayCompare (ps ++ pairs) sk
                  | other => other) s.temps
            else s.temps ++ [.arrayCompare pairs styleKey]
          else s.temps
        else s.temps
      else s.temps
    { s with ds := { s.ds with arr := arr }, temps := temps }

/-- One step of the `valid_pairs` collection loop of `_animate_move_elements`:
skip missing/equal indices, skip out-of-bounds indices, and deduplicate
symmetric pairs through the `undirected` key set (first component of the
accumulator). -/
def move_step (n : Int) (acc : List (Int × Int) × List (Int × Int))
    (p : MovePair) : List (Int × Int) × List (Int × Int) :=
  match p.fromIndex, p.toIndex with
  | some src, some dst =>
    if src = dst then acc
    else if 0 ≤ src ∧ src < n ∧ 0 ≤ dst ∧ dst < n then
      let key := (min src dst, max src dst)
      if key ∈ acc.1 then acc else (acc.1 ++ [key], acc.2 ++ [(src, dst)])
    else acc
  | _, _ => acc

/-- The `valid_pairs` list computed by `_animate_move_elements`. -/
def collect_valid_pairs (n : Int) (pairs : List MovePair) : List (Int × Int) :=
  (pairs.foldl (move_step n) ([], [])).2

/-- One swap `arr[src], arr[dst] = arr[dst], arr[src]` followed by
`arr[src]["index"], arr[dst]["index"] = src, dst`. -/
def swap_at (arr : List ArrElem) (src dst : Int) : List ArrElem :=
  match arr[src.toNat]?, arr[dst.toNat]? with
  | some a, some b =>
      (arr.set src.toNat { b with index := src }).set dst.toNat { a with index := dst }
  | _, _ => arr

/-- `_animate_move_elements`: swap the collected valid pairs in order and,
when `animationKey == "swap"`, record a `swap_arrows` annotation over the
distinct undirected pairs.  (The Python source builds `rec_pairs` from a
`set`; the iteration order of that set is modelled as first-occurrence
order, which is the only order the data determine.) -/
def animate_move_elements (s : RState) (pairs : List MovePair)
    (animationKey styleKey : Option String) : RState :=
  if s.dataType ≠ "array" then s
  else if s.ds.arr = [] then s
  else
    let valid := collect_valid_pairs (s.ds.arr.length : Int) pairs
    if valid = [] then s
    else
      let arr := valid.foldl (fun a (p : Int × Int) => swap_at a p.1 p.2) s.ds.arr
      let temps :=
        if animationKey = some "swap" then
          let recPairs := (valid.map (fun p => (min p.1 p.2, max p.1 p.2))).dedup
          if recPairs ≠ [] then
            s.temps ++ [.swapArrows recPairs (some (styleKey.getD "arrow"))]
          else s.temps
        else s.temps
      { s with ds := { s.ds with arr := arr }, temps := temps }

/-- `_animate_shift_elements`: rebuild the shift entries as `pairs` and
delegate to `_animate_move_elements` with the same remaining parameters. -/
def animate_shift_elements (s : RState) (shifts : List MovePair)
    (animationKey styleKey : Option String) : RState :=
  animate_move_elements s shifts animationKey styleKey

/-- The pair-detection loop of `_animate_update_values`: for every pair of
updated indices whose new/previous values cross over (missing indices compare
as `None == None`), record the undirected pair. -/
def swap_detect_pairs (cond : Int → Int → Prop) [DecidableRel cond] :
    List Int → List (Int × Int)
  | [] => []
  | ui :: rest =>
      rest.filterMap (fun uj =>
        if ui ≠ uj ∧ cond ui uj then some (min ui uj, max ui uj) else none)
      ++ swap_detect_pairs cond rest

/-- `_animate_update_values`: write the in-bounds updates, record a
`swap_arrows` annotation when updated values crossed over, and (outside fast
mode) record an `array_change_flash` annotation over the valid indices. -/
def animate_update_values (s : RState) (updates : List UpdateVal)
    (styleKey : Option String) : RState :=
  if s.dataType ≠ "array" then s
  else if s.ds.arr = [] then s
  else
    let snapshot := s.ds.arr
    let arr := updates.foldl (fun (a : List ArrElem) u =>
      match u.index with
      | some idx =>
        if 0 ≤ idx ∧ idx < (a.length : Int) then
          match a[idx.toNat]? with
          | some e => a.set idx.toNat { e with value := u.value }
          | none => a
        else a
      | none => a) s.ds.arr
    let updatedIndices := updates.filterMap (fun u => u.index)
    let prevVal : Int → Option Val := fun i =>
      if 0 ≤ i ∧ i < (snapshot.length : Int) then (snapshot[i.toNat]?).map (fun e => e.value) else none
    let newVal : Int → Option Val := fun i =>
      if 0 ≤ i ∧ i < (arr.length : Int) then (arr[i.toNat]?).map (fun e => e.value) else none
    let pairs := swap_detect_pairs
      (fun ui uj => newVal ui = prevVal uj ∧ newVal uj = prevVal ui) updatedIndices
    let temps1 :=
      if pairs ≠ [] then s.temps ++ [.swapArrows pairs.dedup (some (styleKey.getD "arrow"))]
      else s.temps
    if s.fastMode then { s with ds := { s.ds with arr := arr }, temps := temps1 }
    else
      let changed := updates.filterMap (fun u =>
        match u.index with
        | some i => if 0 ≤ i ∧ i < (arr.length : Int) then some i else none
        | none => none)
      let temps2 :=
        if changed ≠ [] then temps1 ++ [.arrayChangeFlash changed (some (styleKey.getD "changed"))]
        else temps1
      { s with ds := { s.ds with arr := arr }, temps := temps2 }

/-- `_animate_update_node_style`: set `styleKey` on every node whose id is in
the `ids` set. -/
def animate_update_node_style (s : RState) (ids : List String)
    (styleKey : Option String) : RState :=
  if s.dataType ≠ "graph" ∧ s.dataType ≠ "tree" then s
  else
    { s with ds := { s.ds with struct := { s.ds.struct with
        nodes := s.ds.struct.nodes.map (fun n =>
          if n.id ∈ ids then { n with styleKey := styleKey } else n) } } }

/-- `_animate_update_node_properties`: merge each update's properties into
the node the id-indexed dict points at (the last node with that id). -/
def animate_update_node_properties (s : RState)
    (updates : List (Option String × List (String × Val))) : RState :=
  if s.dataType ≠ "graph" ∧ s.dataType ≠ "tree" then s
  else
    let nodes := updates.foldl (fun (ns : List Node) u =>
      match u.1 with
      | some tid =>
        if ∃ n ∈ ns, n.id = tid then
          update_last (fun n => n.id = tid)
            (fun n => { n with properties := some (dict_update (n.properties.getD []) u.2) }) ns
        else ns
      | none => ns) s.ds.struct.nodes
    { s with ds := { s.ds with struct := { s.ds.struct with nodes := nodes } } }

/-- `_animate_update_edge_style`: set `styleKey` on every edge whose
`(from, to)` pair is among the given keys. -/
def animate_update_edge_style (s : RState)
    (edgeKeys : List (Option String × Option String))
    (styleKey : Option String) : RState :=
  if s.dataType ≠ "graph" ∧ s.dataType ≠ "tree" then s
  else
    { s with ds := { s.ds with struct := { s.ds.struct with
        edges := s.ds.struct.edges.map (fun e =>
          if (e.src, e.dst) ∈ edgeKeys then { e with styleKey := styleKey } else e) } } }

/-- The inner `update_table_data` helper of `_animate_update_table_cell`:
bounds-checked cell writes. -/
def update_table_data (table : List (List Val)) (updates : List CellUpdate) :
    List (List Val) :=
  updates.foldl (fun (t : List (List Val)) u =>
    match u.row, u.col with
    | some r, some c =>
      if 0 ≤ r ∧ r < (t.length : Int) then
        match t[r.toNat]? with
        | some rowL =>
          if 0 ≤ c ∧ c < (rowL.length : Int) then t.set r.toNat (rowL.set c.toNat u.value)
          else t
        | none => t
      else t
    | _, _ => t) table

/-- `_animate_update_table_cell`: update every auxiliary table view whose
`view_id` matches, and the main table data-state when the `view_id` is
`None`, the current view id, or one of the recognized main-view aliases. -/
def animate_update_table_cell (s : RState) (view_id : Option String)
    (updates : List CellUpdate) : RState :=
  let aux := s.auxViews.map (fun v =>
    if v.view_id = view_id ∧ v.vtype = "table" then
      match v.data with
      | .rows g => { v with data := AuxData.rows (update_table_data g updates) }
      | _ => v
    else v)
  let ds :=
    if s.dataType = "table" then
      let currVid := s.ds.tableViewId.getD "main_table"
      if view_id = none ∨ view_id = some currVid ∨ view_id = some "dp_table" ∨
          view_id = some "data_state" ∨ view_id = some "main_table" then
        { s.ds with tableData := update_table_data s.ds.tableData updates }
      else s.ds
    else s.ds
  { s with auxViews := aux, ds := ds }

/-- `_animate_highlight_table_cell`: record a transient highlight. -/
def animate_highlight_table_cell (s : RState) (view_id : Option String)
    (styleKey : Option String) (cells : List (Int × Int)) : RState :=
  { s with temps := s.temps ++ [.tableHighlight view_id styleKey cells] }

/-- `_animate_show_dependency`: record the dependency params verbatim. -/
def animate_show_dependency (s : RState) (p : DepParams) : RState :=
  { s with deps := s.deps ++ [p] }

/-- `_animate_update_boundary`: record a boundary-box annotation. -/
def animate_update_boundary (s : RState) (btype : Option String) (lo hi : Int)
    (styleKey : Option String) (label : Option String) : RState :=
  { s with temps := s.temps ++ [.boundaryBox btype lo hi styleKey label] }

/-- `_animate_remove_boundary`: drop boundary boxes whose original type
matches. -/
def animate_remove_boundary (s : RState) (btype : Option String) : RState :=
  { s with temps := s.temps.filter (fun t =>
      match t with
      | .boundaryBox ot _ _ _ _ => ¬ ot = btype
      | _ => true) }

/-- `_animate_add_node`: append the node if it carries a truthy id that is
not already present. -/
def animate_add_node (s : RState) (node : Option Node) : RState :=
  if s.dataType ≠ "graph" then s
  else match node with
    | some nd =>
      if nd.id ≠ "" ∧ ∀ n ∈ s.ds.struct.nodes, n.id ≠ nd.id then
        { s with ds := { s.ds with struct := { s.ds.struct with
            nodes := s.ds.struct.nodes ++ [nd] } } }
      else s
    | none => s

/-- `_animate_remove_node`: filter the node out of the node list; edges are
not touched. -/
def animate_remove_node (s : RState) (id : Option String) : RState :=
  if s.dataType ≠ "graph" then s
  else if truthy id then
    { s with ds := { s.ds with struct := { s.ds.struct with
        nodes := s.ds.struct.nodes.filter (fun n => ¬ n.id = id.getD "") } } }
  else s

/-- `_animate_add_edge`: append the edge. -/
def animate_add_edge (s : RState) (edge : Option Edge) : RState :=
  if s.dataType ≠ "graph" then s
  else match edge with
    | some e =>
      { s with ds := { s.ds with struct := { s.ds.struct with
          edges := s.ds.struct.edges ++ [e] } } }
    | none => s

/-- `_animate_remove_edge`: filter out the edges matching `(from, to)`. -/
def animate_remove_edge (s : RState) (src dst : Option String) : RState :=
  if s.dataType ≠ "graph" then s
  else if truthy src ∧ truthy dst then
    { s with ds := { s.ds with struct := { s.ds.struct with
        edges := s.ds.struct.edges.filter (fun e =>
          ¬ (e.src = some (src.getD "") ∧ e.dst = some (dst.getD ""))) } } }
  else s

/-- `_animate_add_aux_view`: append the view. -/
def animate_add_aux_view (s : RState) (view : Option AuxView) : RState :=
  match view with
  | some v => { s with auxViews := s.auxViews ++ [v] }
  | none => s

/-- `_animate_remove_aux_view`: drop every view whose `view_id` matches. -/
def animate_remove_aux_view (s : RState) (view_id : Option String) : RState :=
  { s with auxViews := s.auxViews.filter (fun v => ¬ v.view_id = view_id) }

/-- `_find_aux_view_by_id`: the first view with the given `view_id`. -/
def find_aux_view (views : List AuxView) (view_id : Option String) :
    Option AuxView :=
  find_first (fun v => v.view_id = view_id) views

/-- Mutate the view that `_find_aux_view_by_id` found (the first such). -/
def update_aux_view (views : List AuxView) (view_id : Option String)
    (f : AuxView → AuxView) : List AuxView :=
  update_first (fun v => v.view_id = view_id) f views

/-- `_animate_append_to_list`: create a fresh `list` view when the id is
unknown, then append the value (under `list_key` when the backing data is a
dict of sub-lists). -/
def animate_append_to_list (s : RState) (view_id : Option String) (value : Val)
    (list_key : Option String) : RState :=
  match find_aux_view s.auxViews view_id with
  | none =>
    { s with auxViews := s.auxViews ++
        [{ view_id := view_id, vtype := "list", title := view_id, data := .flat [value] }] }
  | some v =>
    match v.data with
    | .keyed m =>
      match list_key with
      | none => s
      | some k =>
        let m1 := if ∃ kv ∈ m, kv.1 = k then m else m ++ [(k, ([] : List Val))]
        let m2 := update_first (fun kv => kv.1 = k)
          (fun kv => (kv.1, kv.2 ++ [value])) m1
        let aux := update_aux_view s.auxViews view_id (fun w => { w with data := .keyed m2 })
        { s with auxViews := aux }
    | .flat items =>
      let aux := update_aux_view s.auxViews view_id (fun w => { w with data := .flat (items ++ [value]) })
      { s with auxViews := aux }
    | .rows _ =>
      -- The Python code appends the raw value onto the list of rows, leaving
      -- a scalar where a row is expected; that heterogeneous list lies
      -- outside the typed trace data model, so the grid is left unchanged.
      s

/-- The head/tail fallback of `_animate_pop_from_list`. -/
def pop_hw {α : Type} (whereFrom : Option String) (lst : List α) : List α :=
  if whereFrom = some "head" ∧ ¬ lst.isEmpty then lst.tail
  else if whereFrom = some "tail" ∧ ¬ lst.isEmpty then lst.dropLast
  else lst

/-- The positional removal modes of `_animate_pop_from_list`: a valid index
pops at that index, otherwise head/tail are tried. -/
def pop_by_pos {α : Type} (index : Option Int) (whereFrom : Option String)
    (lst : List α) : List α :=
  match index with
  | some i =>
    if 0 ≤ i ∧ i < (lst.length : Int) then lst.eraseIdx i.toNat
    else pop_hw whereFrom lst
  | none => pop_hw whereFrom lst

/-- The full removal-mode chain of `_animate_pop_from_list` on a flat list:
by-value first (`list.remove`, first match, swallowing `ValueError`), then
by-index, then head, then tail. -/
def pop_list (value : Option Val) (index : Option Int)
    (whereFrom : Option String) (lst : List Val) : List Val :=
  match value with
  | some v => lst.erase v
  | none => pop_by_pos index whereFrom lst

/-- The same chain on a table grid: `list.remove` compares the scalar value
against whole rows and never matches, so by-value is a no-op there. -/
def pop_rows (value : Option Val) (index : Option Int)
    (whereFrom : Option String) (g : List (List Val)) : List (List Val) :=
  match value with
  | some _ => g
  | none => pop_by_pos index whereFrom g

/-- `_animate_pop_from_list`. -/
def animate_pop_from_list (s : RState) (view_id whereFrom : Option String)
    (index : Option Int) (value : Option Val) (list_key : Option String) : RState :=
  match find_aux_view s.auxViews view_id with
  | none => s
  | some v =>
    match v.data with
    | .keyed m =>
      match list_key with
      | none => s
      | some k =>
        match find_first (fun kv => kv.1 = k) m with
        | none => s
        | some _ =>
          let m2 := update_first (fun kv => kv.1 = k)
            (fun kv => (kv.1, pop_list value index whereFrom kv.2)) m
          let aux := update_aux_view s.auxViews view_id (fun w => { w with data := .keyed m2 })
          { s with auxViews := aux }
    | .flat items =>
      let aux := update_aux_view s.auxViews view_id
        (fun w => { w with data := .flat (pop_list value index whereFrom items) })
      { s with auxViews := aux }
    | .rows g =>
      let aux := update_aux_view s.auxViews view_id
        (fun w => { w with data := .rows (pop_rows value index whereFrom g) })
      { s with auxViews := aux }

/-- `_animate_clear_list`: clear the backing list(s) of the view. -/
def animate_clear_list (s : RState) (view_id : Option String) : RState :=
  match find_aux_view s.auxViews view_id with
  | none => s
  | some v =>
    let newData :=
      match v.data with
      | .keyed m => AuxData.keyed (m.map (fun kv => (kv.1, ([] : List Val))))
      | .flat _ => AuxData.flat []
      | .rows _ => AuxData.rows []
    let aux := update_aux_view s.auxViews view_id (fun w => { w with data := newData })
    { s with auxViews := aux }

/-- `_animate_insert_into_bucket`: append the element to an in-range
bucket's item list; out-of-range bucket indices are ignored. -/
def animate_insert_into_bucket (s : RState) (bucket_index : Option Int)
    (element : Option Item) : RState :=
  if s.dataType ≠ "hashtable" then s
  else match bucket_index, element with
    | some bi, some el =>
      if 0 ≤ bi ∧ bi < (s.ds.struct.buckets.length : Int) then
        match s.ds.struct.buckets[bi.toNat]? with
        | some b =>
          { s with ds := { s.ds with struct := { s.ds.struct with
              buckets := s.ds.struct.buckets.set bi.toNat
                { b with items := b.items ++ [el] } } } }
        | none => s
      else s
    | _, _ => s

/-- `_animate_update_in_bucket`: set the value of the first item with the
given key in an in-range bucket. -/
def animate_update_in_bucket (s : RState) (bucket_index : Option Int)
    (key : Option Val) (value : Val) : RState :=
  if s.dataType ≠ "hashtable" then s
  else match bucket_index, key with
    | some bi, some k =>
      if 0 ≤ bi ∧ bi < (s.ds.struct.buckets.length : Int) then
        match s.ds.struct.buckets[bi.toNat]? with
        | some b =>
          let items1 := update_first (fun it => it.key = k)
            (fun it => { it with value := value }) b.items
          { s with ds := { s.ds with struct := { s.ds.struct with
              buckets := s.ds.struct.buckets.set bi.toNat { b with items := items1 } } } }
        | none => s
      else s
    | _, _ => s

/-- `_animate_remove_from_bucket`: drop every item with the given key from an
in-range bucket. -/
def animate_remove_from_bucket (s : RState) (bucket_index : Option Int)
    (key : Option Val) : RState :=
  if s.dataType ≠ "hashtable" then s
  else match bucket_index, key with
    | some bi, some k =>
      if 0 ≤ bi ∧ bi < (s.ds.struct.buckets.length : Int) then
        match s.ds.struct.buckets[bi.toNat]? with
        | some b =>
          { s with ds := { s.ds with struct := { s.ds.struct with
              buckets := s.ds.struct.buckets.set bi.toNat
                { b with items := b.items.filter (fun it => ¬ it.key = k) } } } }
        | none => s
      else s
    | _, _ => s

/-- `_animate_show_comment`: a truthy text replaces the current comment. -/
def animate_show_comment (s : RState) (text : Option String) : RState :=
  if truthy text then { s with comment := text } else s

/-- The child-attachment step shared by `_animate_add_child` and
`_animate_reparent` (`setdefault`, membership check, positional insert or
append). -/
def attach_child (n : Node) (cid : String) (index : Option Int) : Node :=
  let cs := n.children.getD []
  if cid ∈ cs then { n with children := some cs }
  else
    match index with
    | some i =>
      if 0 ≤ i ∧ i ≤ (cs.length : Int) then { n with children := some (cs.insertIdx i.toNat cid) }
      else { n with children := some (cs ++ [cid]) }
    | none => { n with children := some (cs ++ [cid]) }

/-- `_animate_add_child`: append the node to the node list when its id is new
(before looking up the parent), then attach it under a truthy parent id; with
no parent id, set the node as root only when no root is set. -/
def animate_add_child (s : RState) (parent_id : Option String)
    (node : Option Node) (index : Option Int) : RState :=
  if s.dataType ≠ "tree" then s
  else match node with
    | none => s
    | some nd =>
      let nodes0 := s.ds.struct.nodes
      let nodes1 :=
        if nd.id ≠ "" ∧ ∀ n ∈ nodes0, n.id ≠ nd.id then nodes0 ++ [nd] else nodes0
      if truthy parent_id then
        { s with ds := { s.ds with struct := { s.ds.struct with
            nodes := update_first (fun n => n.id = parent_id.getD "")
              (fun n => attach_child n nd.id index) nodes1 } } }
      else
        { s with ds := { s.ds with struct := { s.ds.struct with
            nodes := nodes1,
            root := if truthy s.ds.struct.root then s.ds.struct.root else some nd.id } } }

/-- `_animate_remove_child`: remove the child id from the first parent
node's children list (when that list exists). -/
def animate_remove_child (s : RState) (parent_id child_id : Option String) : RState :=
  if s.dataType ≠ "tree" then s
  else if truthy parent_id ∧ truthy child_id then
    { s with ds := { s.ds with struct := { s.ds.struct with
        nodes := update_first (fun n => n.id = parent_id.getD "")
          (fun n => { n with children := n.children.map (fun cs => cs.erase (child_id.getD "")) })
          s.ds.struct.nodes } } }
  else s

/-- `_animate_reparent`: find the node, detach it from its recorded parent's
children list, set its `parent` field, then either attach it under the new
parent or promote it to root when no truthy new parent is given. -/
def animate_reparent (s : RState) (node_id new_parent_id : Option String)
    (index : Option Int) : RState :=
  if s.dataType ≠ "tree" then s
  else if ¬ truthy node_id then s
  else
    let nid := node_id.getD ""
    let nodes0 := s.ds.struct.nodes
    match find_first (fun n => n.id = nid) nodes0 with
    | none => s
    | some target =>
      let nodes1 :=
        if truthy target.parent then
          update_first (fun n => n.id = target.parent.getD "")
            (fun n => { n with children := n.children.map (fun cs => cs.erase nid) }) nodes0
        else nodes0
      let nodes2 := update_first (fun n => n.id = nid)
        (fun n => { n with parent := new_parent_id }) nodes1
      if truthy new_parent_id then
        { s with ds := { s.ds with struct := { s.ds.struct with
            nodes := update_first (fun n => n.id = new_parent_id.getD "")
              (fun n => attach_child n nid index) nodes2 } } }
      else
        { s with ds := { s.ds with struct := { s.ds.struct with
            nodes := nodes2, root := some nid } } }

/-- `_animate_swap_nodes`: exchange labels/properties (and, on request,
children) of the two nodes the scanning loop leaves in `node_a`/`node_b`
(the last occurrence of each id; with equal ids the `elif` never fires and
the operation is a no-op).  Each field is swapped only when both dicts carry
the key. -/
def animate_swap_nodes (s : RState) (a_id b_id : Option String)
    (swap_children : Bool) : RState :=
  if s.dataType ≠ "tree" then s
  else if truthy a_id ∧ truthy b_id then
    let aid := a_id.getD ""
    let bid := b_id.getD ""
    let nodes := s.ds.struct.nodes
    match find_first (fun n => n.id = aid) nodes.reverse,
          if aid = bid then none else find_first (fun n => n.id = bid) nodes.reverse with
    | some na, some nb =>
      let (la, lb) := if na.label.isSome ∧ nb.label.isSome
        then (nb.label, na.label) else (na.label, nb.label)
      let (pa, pb) := if na.properties.isSome ∧ nb.properties.isSome
        then (nb.properties, na.properties) else (na.properties, nb.properties)
      let (ca, cb) := if swap_children ∧ na.children.isSome ∧ nb.children.isSome
        then (nb.children, na.children) else (na.children, nb.children)
      let nodes1 := update_last (fun n => n.id = aid)
        (fun n => { n with label := la, properties := pa, children := ca }) nodes
      let nodes2 := update_last (fun n => n.id = bid)
        (fun n => { n with label := lb, properties := pb, children := cb }) nodes1
      { s with ds := { s.ds with struct := { s.ds.struct with nodes := nodes2 } } }
    | _, _ => s
  else s

/-- `_apply_operation_silent`: the fall-through for unknown operation names
(a `pass`). -/
def apply_operation_silent (s : RState) (_name : String) : RState := s

/-- `_process_operation_with_animation`: dispatch on the operation name. -/
def process_operation (s : RState) (op : Op) : RState :=
  match op with
  | .updateStyle sk idx => animate_update_style s sk idx
  | .moveElements ps ak sk => animate_move_elements s ps ak sk
  | .shiftElements sh ak sk => animate_shift_elements s sh ak sk
  | .updateValues us sk => animate_update_values s us sk
  | .updateNodeStyle ids sk => animate_update_node_style s ids sk
  | .updateNodeProperties us => animate_update_node_properties s us
  | .updateEdgeStyle es sk => animate_update_edge_style s es sk
  | .updateTableCell vid us => animate_update_table_cell s vid us
  | .highlightTableCell vid sk cs => animate_highlight_table_cell s vid sk cs
  | .showDependency p => animate_show_dependency s p
  | .updateBoundary bt lo hi sk lb => animate_update_boundary s bt lo hi sk lb
  | .removeBoundary bt => animate_remove_boundary s bt
  | .addNode nd => animate_add_node s nd
  | .removeNode nid => animate_remove_node s nid
  | .addEdge e => animate_add_edge s e
  | .removeEdge f t => animate_remove_edge s f t
  | .addAuxView v => animate_add_aux_view s v
  | .removeAuxView vid => animate_remove_aux_view s vid
  | .appendToList vid v lk => animate_append_to_list s vid v lk
  | .popFromList vid w i v lk => animate_pop_from_list s vid w i v lk
  | .clearList vid => animate_clear_list s vid
  | .insertIntoBucket bi el => animate_insert_into_bucket s bi el
  | .updateInBucket bi k v => animate_update_in_bucket s bi k v
  | .removeFromBucket bi k => animate_remove_from_bucket s bi k
  | .showHash => s
  | .highlightCollision => s
  | .highlightBucket => s
  | .showComment t => animate_show_comment s t
  | .addChild pid nd i => animate_add_child s pid nd i
  | .removeChild pid cid => animate_remove_child s pid cid
  | .reparent nid np i => animate_reparent s nid np i
  | .swapNodes a b sc => animate_swap_nodes s a b sc
  | .highlightPath => s
  | .unknown n => apply_operation_silent s n

/-- The operation name of an `Op`. -/
def Op.opName : Op → String
  | .updateStyle _ _ => "updateStyle"
  | .moveElements _ _ _ => "moveElements"
  | .shiftElements _ _ _ => "shiftElements"
  | .updateValues _ _ => "updateValues"
  | .updateNodeStyle _ _ => "updateNodeStyle"
  | .updateNodeProperties _ => "updateNodeProperties"
  | .updateEdgeStyle _ _ => "updateEdgeStyle"
  | .updateTableCell _ _ => "updateTableCell"
  | .highlightTableCell _ _ _ => "highlightTableCell"
  | .showDependency _ => "showDependency"
  | .updateBoundary _ _ _ _ _ => "updateBoundary"
  | .removeBoundary _ => "removeBoundary"
  | .addNode _ => "addNode"
  | .removeNode _ => "removeNode"
  | .addEdge _ => "addEdge"
  | .removeEdge _ _ => "removeEdge"
  | .addAuxView _ => "addAuxView"
  | .removeAuxView _ => "removeAuxView"
  | .appendToList _ _ _ => "appendToList"
  | .popFromList _ _ _ _ _ => "popFromList"
  | .clearList _ => "clearList"
  | .insertIntoBucket _ _ => "insertIntoBucket"
  | .updateInBucket _ _ _ => "updateInBucket"
  | .removeFromBucket _ _ => "removeFromBucket"
  | .showHash => "showHash"
  | .highlightCollision => "highlightCollision"
  | .highlightBucket => "highlightBucket"
  | .showComment _ => "showComment"
  | .addChild _ _ _ => "addChild"
  | .removeChild _ _ => "removeChild"
  | .reparent _ _ _ => "reparent"
  | .swapNodes _ _ _ => "swapNodes"
  | .highlightPath => "highlightPath"
  | .unknown n => n

/-- The keys of the dispatch table `op_map`. -/
def recognized_operation_names : List String :=
  ["updateStyle", "moveElements", "shiftElements", "updateValues",
   "updateNodeStyle", "updateNodeProperties", "updateEdgeStyle",
   "updateTableCell", "highlightTableCell", "showDependency",
   "updateBoundary", "removeBoundary", "addNode", "removeNode", "addEdge",
   "removeEdge", "addAuxView", "removeAuxView", "appendToList",
   "popFromList", "clearList", "insertIntoBucket", "updateInBucket",
   "removeFromBucket", "showHash", "highlightCollision", "highlightBucket",
   "showComment", "addChild", "removeChild", "reparent", "swapNodes",
   "highlightPath"]

/-- `_apply_delta_with_animation`: apply the `meta` variable updates, reset
the per-delta transient annotation state (keeping boundary boxes), then apply
every operation of every group in listed order. -/
def apply_delta (s : RState) (d : Delta) : RState :=
  let vars := d.meta.foldl (fun (m : List (String × Val)) kv =>
    if ∃ p ∈ m, p.1 = kv.1 then dict_set kv.1 kv.2 m else m) s.vars
  let s1 := { s with vars := vars,
                     temps := s.temps.filter TempElem.isBoundaryBox,
                     deps := [],
                     comment := none }
  d.operations.foldl (fun acc grp => grp.foldl process_operation acc) s1

/-- The replay loop of `construct`: apply the deltas strictly in order. -/
def replay (s : RState) (deltas : List Delta) : RState :=
  deltas.foldl apply_delta s

/-! ### Renderer construction (`__init__` and `_validate_version`) -/

/-- The initial frame of a trace (rendering-only keys such as `pseudocode`,
`styles`, `code_highlight` are omitted: the replay state never reads them). -/
structure Frame where
  data_state : DataState
  auxiliary_views : List AuxView := []
  variables_schema : List String := []
deriving DecidableEq

/-- A trace document. -/
structure Trace where
  svl_version : Option String := none
  algorithm_name : String := ""
  initial_frame : Frame
  deltas : List Delta := []
deriving DecidableEq

/-- `_validate_version`: returns the warning text the source prints when the
version is not `"5.0"`; it never raises and never rejects the trace. -/
def validate_version (version : Option String) : Option String :=
  if version ≠ some "5.0" then
    some "Warning: renderer is designed for SVL 5.0, but file version differs."
  else none

/-- The rows of an auxiliary table view's data (the dp-promotion copies
them into the main data-state). -/
def aux_rows : AuxData → List (List Val)
  | .rows g => g
  | _ => []

/-- The dp-table promotion predicate of `__init__` (lines 36-42). -/
def is_dp_table_view (v : AuxView) : Prop :=
  v.vtype = "table" ∧ v.view_id = some "dp_table"

instance : DecidablePred is_dp_table_view := fun v =>
  inferInstanceAs (Decidable (v.vtype = "table" ∧ v.view_id = some "dp_table"))

/-- `SVLManimRenderer.__init__`, state-construction part: validate (warn
only), promote a `dp_table` auxiliary view to the main data-state when the
type tag is missing, normalize the `dp`-family type aliases to `table`,
default the table view id, and initialize variables to `"-"`.  Rendering
configuration (spacing, timing) is presentation-only except the fast-mode
flag, which gates one annotation append. -/
def init_renderer (t : Trace) (fastMode : Bool) : RState :=
  let ds0 := t.initial_frame.data_state
  let aux0 := t.initial_frame.auxiliary_views
  let promoted : DataState × List AuxView :=
    if ds0.dtype = "" then
      match find_first is_dp_table_view aux0 with
      | some dp =>
        ({ dtype := "table", arr := [], struct := {},
           tableData := aux_rows dp.data, tableViewId := dp.view_id },
         aux0.eraseP (fun v => decide (is_dp_table_view v)))
      | none => (ds0, aux0)
    else (ds0, aux0)
  let ds1 := promoted.1
  let ds2 :=
    if ds1.dtype = "dp" ∨ ds1.dtype = "dp_table" ∨ ds1.dtype = "dp_edit_distance"
    then { ds1 with dtype := "table" } else ds1
  let ds3 :=
    if ds2.dtype = "table" ∧ ds2.tableViewId = none
    then { ds2 with tableViewId := some "dp_table" } else ds2
  { dataType := if ds3.dtype = "" then "none" else ds3.dtype,
    ds := ds3,
    auxViews := promoted.2,
    vars := t.initial_frame.variables_schema.map (fun n => (n, Val.str "-")),
    temps := [], deps := [], comment := none, fastMode := fastMode }

/-- The edge-drawing guard of `_create_graph_view` (lines 1049-1052): an
edge is rendered only when both endpoint ids have node mobjects. -/
def renderable_edges (nodes : List Node) (edges : List Edge) : List Edge :=
  edges.filter (fun e =>
    match e.src, e.dst with
    | some f, some t => (∃ n ∈ nodes, n.id = f) ∧ (∃ n ∈ nodes, n.id = t)
    | _, _ => False)

/-! ### Shared lemmas about the loop helpers -/

lemma foldl_length_eq {α β : Type} (f : List α → β → List α)
    (h : ∀ a x, (f a x).length = a.length) :
    ∀ (xs : List β) (a : List α), (xs.foldl f a).length = a.length := by
  intro xs
  induction xs with
  | nil => intro a; rfl
  | cons x xs ih => intro a; rw [List.foldl_cons, ih, h]

lemma update_first_of_forall_not {α : Type} (p : α → Prop) [DecidablePred p]
    (f : α → α) (l : List α) (h : ∀ x ∈ l, ¬ p x) :
    update_first p f l = l := by
  induction l with
  | nil => rfl
  | cons x xs ih =>
    rw [update_first, if_neg (h x (List.mem_cons_self x xs))]
    rw [ih (fun y hy => h y (List.mem_cons_of_mem x hy))]

lemma update_first_fixed {α : Type} (p : α → Prop) [DecidablePred p]
    (f : α → α) (l : List α) (h : ∀ x ∈ l, p x → f x = x) :
    update_first p f l = l := by
  induction l with
  | nil => rfl
  | cons x xs ih =>
    rw [update_first]
    by_cases hp : p x
    · rw [if_pos hp, h x (List.mem_cons_self x xs) hp]
    · rw [if_neg hp, ih (fun y hy hpy => h y (List.mem_cons_of_mem x hy) hpy)]

/-- When the matched key is unique in the list (no two elements satisfy `p`
jointly via a key function), updating the first match equals mapping a
conditional update over the whole list. -/
lemma update_first_eq_map {α : Type} (key : α → String) (k : String)
    (f : α → α) (l : List α) (h : (l.map key).Nodup) :
    update_first (fun x => key x = k) f l =
      l.map (fun x => if key x = k then f x else x) := by
  induction l with
  | nil => rfl
  | cons x xs ih =>
    rw [List.map_cons, List.nodup_cons] at h
    rw [update_first, List.map_cons]
    by_cases hp : key x = k
    · rw [if_pos hp, if_pos hp]
      have hnk : ∀ y ∈ xs, ¬ key y = k := by
        intro y hy hyk
        have : key y ∈ xs.map key := List.mem_map_of_mem key hy
        rw [hyk, ← hp] at this
        exact h.1 this
      have hmap : xs.map (fun y => if key y = k then f y else y) = xs := by
        conv_rhs => rw [← List.map_id xs]
        apply List.map_congr_left
        intro y hy
        rw [if_neg (hnk y hy)]
        rfl
      rw [hmap]
    · rw [if_neg hp, if_neg hp, ih h.2]

lemma mem_map_cond {α : Type} {l : List α} {g : α → α} {x : α}
    (hx : x ∈ l.map g) : ∃ y ∈ l, x = g y := by
  rcases List.mem_map.mp hx with ⟨y, hy, rfl⟩
  exact ⟨y, hy, rfl⟩

/-! ### Sample states used by the concrete witnesses -/

/-- A small array-variant state. -/
def sampleArrayState : RState :=
  { dataType := "array",
    ds := { dtype := "array",
            arr := [⟨0, .int 10, some "idle"⟩, ⟨1, .int 20, some "idle"⟩,
                    ⟨2, .int 30, some "idle"⟩] } }

/-- A small tree-variant state. -/
def sampleTreeState : RState :=
  { dataType := "tree",
    ds := { dtype := "tree",
            struct := { root := some "r",
                        nodes := [⟨"r", none, none, none, none, some ["a"]⟩,
                                  ⟨"a", none, none, none, some "r", some ["b"]⟩,
                                  ⟨"b", none, none, none, some "a", some []⟩] } } }

/-- A small graph-variant state with one directed edge. -/
def sampleGraphState : RState :=
  { dataType := "graph",
    ds := { dtype := "graph",
            struct := { nodes := [⟨"A", none, none, none, none, none⟩,
                                  ⟨"B", none, none, none, none, none⟩],
                        edges := [⟨some "A", some "B", true, none, none⟩] } } }

/-- A small hashtable-variant state with three empty buckets. -/
def sampleHashState : RState :=
  { dataType := "hashtable",
    ds := { dtype := "hashtable",
            struct := { size := 3, buckets := [⟨0, []⟩, ⟨1, []⟩, ⟨2, []⟩] } } }

/-- A sample delta exercising several operations. -/
def sampleDeltas : List Delta :=
  [{ meta := [("i", .int 1)],
     operations := [[.updateValues [⟨some 0, .int 9⟩] none],
                    [.updateStyle (some "compare") [0, 1]],
                    [.showComment (some "step")]] }]

/-! ### C1: replay determinism -/

/-- C1: for every valid trace, replaying all deltas from the initial frame is
deterministic: applying the same delta sequence to two copies of the same
initial state (same configuration) yields identical final data-state,
auxiliary views, variables, and annotation state. -/
theorem replay_deterministic (s₁ s₂ : RState) (deltas : List Delta)
    (h : s₁ = s₂) :
    (replay s₁ deltas).ds = (replay s₂ deltas).ds ∧
    (replay s₁ deltas).auxViews = (replay s₂ deltas).auxViews ∧
    (replay s₁ deltas).vars = (replay s₂ deltas).vars ∧
    (replay s₁ deltas).temps = (replay s₂ deltas).temps ∧
    (replay s₁ deltas).deps = (replay s₂ deltas).deps ∧
    (replay s₁ deltas).comment = (replay s₂ deltas).comment := by
  subst h
  exact ⟨rfl, rfl, rfl, rfl, rfl, rfl⟩

/-- Witness for C1 at a concrete state and delta list. -/
theorem replay_deterministic_witness :
    (replay sampleArrayState sampleDeltas).ds = (replay sampleArrayState sampleDeltas).ds ∧
    (replay sampleArrayState sampleDeltas).auxViews = (replay sampleArrayState sampleDeltas).auxViews ∧
    (replay sampleArrayState sampleDeltas).vars = (replay sampleArrayState sampleDeltas).vars ∧
    (replay sampleArrayState sampleDeltas).temps = (replay sampleArrayState sampleDeltas).temps ∧
    (replay sampleArrayState sampleDeltas).deps = (replay sampleArrayState sampleDeltas).deps ∧
    (replay sampleArrayState sampleDeltas).comment = (replay sampleArrayState sampleDeltas).comment :=
  replay_deterministic sampleArrayState sampleArrayState sampleDeltas rfl

/-! ### C4: unknown operation names are silently ignored -/

/-- C4: applying an operation whose name is not among the recognized
operation names changes no observable state (it falls through the dispatch
table to `_apply_operation_silent`, a `pass`) and never raises. -/
theorem unknown_operation_silent (s : RState) (op : Op)
    (h : op.opName ∉ recognized_operation_names) :
    process_operation s op = s := by
  cases op <;> simp only [Op.opName] at h <;>
    first
      | rfl
      | exact absurd (by decide) h

/-- Witness for C4: a concrete unrecognized operation name on a concrete
state. -/
theorem unknown_operation_silent_witness :
    process_operation sampleArrayState (.unknown "rotateElements") = sampleArrayState :=
  unknown_operation_silent sampleArrayState (.unknown "rotateElements") (by decide)

/-! ### C2: the array length is constant across every frame -/

lemma arr_length_update_style (s : RState) (sk : Option String) (idx : List Int) :
    (animate_update_style s sk idx).ds.arr.length = s.ds.arr.length := by
  unfold animate_update_style
  split
  · rfl
  · split
    · rfl
    · simp only
      apply foldl_length_eq
      intro a x
      split
      · split <;> simp [List.length_set]
      · rfl

lemma arr_length_move_elements (s : RState) (ps : List MovePair)
    (ak sk : Option String) :
    (animate_move_elements s ps ak sk).ds.arr.length = s.ds.arr.length := by
  unfold animate_move_elements
  split
  · rfl
  · split
    · rfl
    · dsimp only
      split
      · rfl
      · dsimp only
        apply foldl_length_eq
        intro a x
        unfold swap_at
        split <;> simp [List.length_set]

lemma arr_length_update_values (s : RState) (us : List UpdateVal)
    (sk : Option String) :
    (animate_update_values s us sk).ds.arr.length = s.ds.arr.length := by
  unfold animate_update_values
  split
  · rfl
  · split
    · rfl
    · dsimp only
      repeat' split
      all_goals
        apply foldl_length_eq
        intro a u
        rcases u.index with _ | idx
        · rfl
        · dsimp only
          split
          · split <;> simp [List.length_set]
          · rfl

lemma arr_unchanged_non_array_op (s : RState) (op : Op)
    (h : op.opName ∉ ["updateStyle", "moveElements", "shiftElements", "updateValues"]) :
    (process_operation s op).ds.arr = s.ds.arr := by
  cases op <;> simp only [Op.opName] at h <;>
    first
      | exact absurd (by decide) h
      | rfl
      | · simp only [process_operation]
          first
            | unfold animate_update_node_style
            | unfold animate_update_node_properties
            | unfold animate_update_edge_style
            | unfold animate_update_table_cell
            | unfold animate_highlight_table_cell
            | unfold animate_show_dependency
            | unfold animate_update_boundary
            | unfold animate_remove_boundary
            | unfold animate_add_node
            | unfold animate_remove_node
            | unfold animate_add_edge
            | unfold animate_remove_edge
            | unfold animate_add_aux_view
            | unfold animate_remove_aux_view
            | unfold animate_append_to_list
            | unfold animate_pop_from_list
            | unfold animate_clear_list
            | unfold animate_insert_into_bucket
            | unfold animate_update_in_bucket
            | unfold animate_remove_from_bucket
            | unfold animate_show_comment
            | unfold animate_add_child
            | unfold animate_remove_child
            | unfold animate_reparent
            | unfold animate_swap_nodes
          repeat first | rfl | split | dsimp only

lemma arr_length_process_operation (s : RState) (op : Op) :
    (process_operation s op).ds.arr.length = s.ds.arr.length := by
  cases op
  case updateStyle sk idx => exact arr_length_update_style s sk idx
  case moveElements ps ak sk => exact arr_length_move_elements s ps ak sk
  case shiftElements sh ak sk => exact arr_length_move_elements s sh ak sk
  case updateValues us sk => exact arr_length_update_values s us sk
  case unknown n => rfl
  all_goals
    rw [arr_unchanged_non_array_op]
    simp only [Op.opName]
    decide

lemma arr_length_ops_foldl :
    ∀ (ops : List Op) (s : RState),
      (ops.foldl process_operation s).ds.arr.length = s.ds.arr.length := by
  intro ops
  induction ops with
  | nil => intro s; rfl
  | cons op ops ih =>
    intro s
    rw [List.foldl_cons, ih, arr_length_process_operation]

lemma arr_length_groups_foldl :
    ∀ (gs : List (List Op)) (s : RState),
      (gs.foldl (fun acc grp => grp.foldl process_operation acc) s).ds.arr.length
        = s.ds.arr.length := by
  intro gs
  induction gs with
  | nil => intro s; rfl
  | cons g gs ih =>
    intro s
    rw [List.foldl_cons, ih, arr_length_ops_foldl]

lemma arr_length_apply_delta (s : RState) (d : Delta) :
    (apply_delta s d).ds.arr.length = s.ds.arr.length := by
  unfold apply_delta
  dsimp only
  rw [arr_length_groups_foldl]

/-- C2: for every trace (in particular every trace whose data-state variant
is `array`), the length of the array list is constant across every frame: no
operation in the vocabulary adds or removes an array element after the
initial frame.  (Stated unconditionally over all states and delta lists,
which covers every frame of a replay as a prefix.) -/
theorem array_length_constant (deltas : List Delta) (s : RState) :
    (replay s deltas).ds.arr.length = s.ds.arr.length := by
  induction deltas generalizing s with
  | nil => rfl
  | cons d ds ih =>
    show (replay (apply_delta s d) ds).ds.arr.length = s.ds.arr.length
    rw [ih, arr_length_apply_delta]

/-! ### C3: out-of-range references (corrected) -/

lemma truthy_some_iff (s : String) : truthy (some s) = true ↔ s ≠ "" := by
  simp only [truthy, Bool.not_eq_true']
  rw [Bool.eq_false_iff]
  constructor
  · intro h he
    exact h (String.isEmpty_iff s |>.mpr he)
  · intro h he
    exact h (String.isEmpty_iff s |>.mp he)

lemma update_values_oob_noop (s : RState) (i : Int) (v : Val)
    (sk : Option String) (hi : ¬ (0 ≤ i ∧ i < (s.ds.arr.length : Int))) :
    process_operation s (.updateValues [⟨some i, v⟩] sk) = s := by
  show animate_update_values s [⟨some i, v⟩] sk = s
  unfold animate_update_values
  split
  · rfl
  · split
    · rfl
    · simp only [List.foldl_cons, List.foldl_nil, if_neg hi, List.filterMap,
        swap_detect_pairs, List.append_nil]
      split <;> rfl

lemma insert_into_bucket_oob_noop (s : RState) (bi : Int) (el : Item)
    (hb : ¬ (0 ≤ bi ∧ bi < (s.ds.struct.buckets.length : Int))) :
    process_operation s (.insertIntoBucket (some bi) (some el)) = s := by
  show animate_insert_into_bucket s (some bi) (some el) = s
  unfold animate_insert_into_bucket
  split
  · rfl
  · dsimp only
    rw [if_neg hb]

lemma add_child_missing_parent_appends (s : RState) (pid : String) (nd : Node)
    (idx : Option Int) (htree : s.dataType = "tree") (hpid : pid ≠ "")
    (hnop : ∀ n ∈ s.ds.struct.nodes, n.id ≠ pid) (hnd : nd.id ≠ "")
    (hndpid : nd.id ≠ pid) (hnew : ∀ n ∈ s.ds.struct.nodes, n.id ≠ nd.id) :
    process_operation s (.addChild (some pid) (some nd) idx) =
      { s with ds := { s.ds with struct := { s.ds.struct with
          nodes := s.ds.struct.nodes ++ [nd] } } } := by
  show animate_add_child s (some pid) (some nd) idx = _
  unfold animate_add_child
  rw [if_neg (by simp [htree])]
  dsimp only
  rw [if_pos (And.intro hnd hnew)]
  rw [if_pos ((truthy_some_iff pid).mpr hpid)]
  rw [update_first_of_forall_not]
  intro n hn
  rcases List.mem_append.mp hn with h1 | h1
  · exact fun he => hnop n h1 he
  · rcases List.mem_singleton.mp h1 with rfl
    exact fun he => hndpid he

/-- C3 counterexample: the claim "an out-of-range or nonexistent reference in
any mutating operation leaves the entire state unchanged" is false for
`addChild`: with a nonexistent `parent_id` the handler has already appended
the new node to the node list before the parent lookup fails, so the state
changes. -/
theorem add_child_missing_parent_changes_state :
    process_operation sampleTreeState
      (.addChild (some "missing") (some ⟨"x", none, none, none, none, none⟩) none)
      ≠ sampleTreeState := by decide

/-- C3 (amended): out-of-range references never raise (every handler is a
total function) and leave the state unchanged for `updateValues` with a
single out-of-bounds index and for `insertIntoBucket` with an out-of-range
bucket index; `addChild` with a nonexistent `parent_id` (and a genuinely new
node id) also never raises, but it does append the new node to the node
list, attached to no parent — the rest of the state is unchanged. -/
theorem out_of_range_reference_behavior :
    (∀ (s : RState) (i : Int) (v : Val) (sk : Option String),
       ¬ (0 ≤ i ∧ i < (s.ds.arr.length : Int)) →
       process_operation s (.updateValues [⟨some i, v⟩] sk) = s) ∧
    (∀ (s : RState) (bi : Int) (el : Item),
       ¬ (0 ≤ bi ∧ bi < (s.ds.struct.buckets.length : Int)) →
       process_operation s (.insertIntoBucket (some bi) (some el)) = s) ∧
    (∀ (s : RState) (pid : String) (nd : Node) (idx : Option Int),
       s.dataType = "tree" → pid ≠ "" →
       (∀ n ∈ s.ds.struct.nodes, n.id ≠ pid) →
       nd.id ≠ "" → nd.id ≠ pid →
       (∀ n ∈ s.ds.struct.nodes, n.id ≠ nd.id) →
       process_operation s (.addChild (some pid) (some nd) idx) =
         { s with ds := { s.ds with struct := { s.ds.struct with
             nodes := s.ds.struct.nodes ++ [nd] } } }) :=
  ⟨fun s i v sk hi => update_values_oob_noop s i v sk hi,
   fun s bi el hb => insert_into_bucket_oob_noop s bi el hb,
   fun s pid nd idx h1 h2 h3 h4 h5 h6 =>
     add_child_missing_parent_appends s pid nd idx h1 h2 h3 h4 h5 h6⟩

/-- Witness for C3 (amended) at concrete out-of-range inputs. -/
theorem out_of_range_reference_behavior_witness :
    process_operation sampleArrayState (.updateValues [⟨some 99, .int 7⟩] none)
      = sampleArrayState ∧
    process_operation sampleHashState
      (.insertIntoBucket (some 99) (some ⟨.str "k", .int 1⟩)) = sampleHashState ∧
    process_operation sampleTreeState
      (.addChild (some "zzz") (some ⟨"w", none, none, none, none, none⟩) none) =
      { sampleTreeState with ds := { sampleTreeState.ds with
          struct := { sampleTreeState.ds.struct with
            nodes := sampleTreeState.ds.struct.nodes
              ++ [⟨"w", none, none, none, none, none⟩] } } } :=
  ⟨out_of_range_reference_behavior.1 sampleArrayState 99 (.int 7) none (by decide),
   out_of_range_reference_behavior.2.1 sampleHashState 99 ⟨.str "k", .int 1⟩ (by decide),
   out_of_range_reference_behavior.2.2 sampleTreeState "zzz"
     ⟨"w", none, none, none, none, none⟩ none rfl (by decide) (by decide)
     (by decide) (by decide) (by decide)⟩

/-! ### C5: version validation (corrected) -/

/-- A concrete trace with an unaccepted `svl_version`. -/
def badVersionTrace : Trace :=
  { svl_version := some "1.0",
    initial_frame := { data_state := { dtype := "array",
                                       arr := [⟨0, .int 1, some "idle"⟩] } } }

/-- C5 counterexample: loading a trace whose `svl_version` is not accepted is
NOT rejected — construction yields exactly the renderer state of the same
trace with the accepted version, and `_validate_version` merely produces a
warning message (which the source prints). -/
theorem bad_version_not_rejected :
    init_renderer badVersionTrace false =
      init_renderer { badVersionTrace with svl_version := some "5.0" } false ∧
    validate_version badVersionTrace.svl_version ≠ none :=
  ⟨rfl, by decide⟩

/-- C5 (amended): `_validate_version` emits a warning exactly when the
version differs from `"5.0"`, and renderer construction proceeds identically
regardless of the version — a version mismatch is warned about and
continued, never rejected. -/
theorem version_mismatch_warns_only :
    (∀ v : Option String, (validate_version v).isSome ↔ v ≠ some "5.0") ∧
    (∀ (t : Trace) (v : Option String) (fm : Bool),
       init_renderer { t with svl_version := v } fm = init_renderer t fm) := by
  constructor
  · intro v
    by_cases h : v = some "5.0"
    · simp [validate_version, h]
    · simp [validate_version, h]
  · intro t v fm
    rfl

/-! ### C6: dangling edges after node removal (corrected) -/

/-- C6 counterexample: after a delta whose only operation removes node
`"A"`, the edge `A→B` is still present in the data model while `"A"` is no
longer a node id — a dangling edge survives within the same delta. -/
theorem dangling_edge_after_remove_node :
    ∃ e ∈ (apply_delta sampleGraphState
        ⟨[], [[.removeNode (some "A")]]⟩).ds.struct.edges,
      e.src = some "A" ∧
      ∀ n ∈ (apply_delta sampleGraphState
          ⟨[], [[.removeNode (some "A")]]⟩).ds.struct.nodes,
        n.id ≠ "A" := by decide

lemma remove_node_edges_eq (s : RState) (oid : Option String) :
    (process_operation s (.removeNode oid)).ds.struct.edges = s.ds.struct.edges := by
  show (animate_remove_node s oid).ds.struct.edges = _
  unfold animate_remove_node
  repeat first | rfl | split | dsimp only

lemma remove_node_nodes_eq (s : RState) (nid : String)
    (hg : s.dataType = "graph") (hn : nid ≠ "") :
    (process_operation s (.removeNode (some nid))).ds.struct.nodes
      = s.ds.struct.nodes.filter (fun n => ¬ n.id = nid) := by
  show (animate_remove_node s (some nid)).ds.struct.nodes = _
  unfold animate_remove_node
  rw [if_neg (by simp [hg]), if_pos ((truthy_some_iff nid).mpr hn)]
  rfl

lemma remove_node_renderable (s : RState) (nid : String)
    (hg : s.dataType = "graph") (hn : nid ≠ "") :
    ∀ e ∈ renderable_edges
        (process_operation s (.removeNode (some nid))).ds.struct.nodes
        (process_operation s (.removeNode (some nid))).ds.struct.edges,
      e.src ≠ some nid ∧ e.dst ≠ some nid := by
  intro e he
  rw [renderable_edges] at he
  rcases List.mem_filter.mp he with ⟨hmem, hpred⟩
  rw [remove_node_nodes_eq s nid hg hn] at hpred
  constructor
  · intro hcontra
    rw [hcontra] at hpred
    rcases hd : e.dst with _ | t
    · rw [hd] at hpred
      simp at hpred
    · rw [hd] at hpred
      simp only [decide_eq_true_eq] at hpred
      obtain ⟨⟨nf, hnf, hnfid⟩, _⟩ := hpred
      rcases List.mem_filter.mp hnf with ⟨_, hnot⟩
      simp only [decide_eq_true_eq] at hnot
      exact hnot hnfid
  · intro hcontra
    rw [hcontra] at hpred
    rcases hsf : e.src with _ | f
    · rw [hsf] at hpred
      simp at hpred
    · rw [hsf] at hpred
      simp only [decide_eq_true_eq] at hpred
      obtain ⟨_, ⟨nt, hnt, hntid⟩⟩ := hpred
      rcases List.mem_filter.mp hnt with ⟨_, hnot⟩
      simp only [decide_eq_true_eq] at hnot
      exact hnot hntid

/-- C6 (amended): `removeNode` does not cascade — the edge list is left
unchanged, so an edge whose endpoint node was removed stays dangling in the
data model; the node itself is filtered out of the node list, and the
rendering-side edge guard (`renderable_edges`) draws no edge touching the
removed id. -/
theorem remove_node_non_cascading :
    (∀ (s : RState) (oid : Option String),
       (process_operation s (.removeNode oid)).ds.struct.edges
         = s.ds.struct.edges) ∧
    (∀ (s : RState) (nid : String), s.dataType = "graph" → nid ≠ "" →
       (process_operation s (.removeNode (some nid))).ds.struct.nodes
         = s.ds.struct.nodes.filter (fun n => ¬ n.id = nid)) ∧
    (∀ (s : RState) (nid : String), s.dataType = "graph" → nid ≠ "" →
       ∀ e ∈ renderable_edges
           (process_operation s (.removeNode (some nid))).ds.struct.nodes
           (process_operation s (.removeNode (some nid))).ds.struct.edges,
         e.src ≠ some nid ∧ e.dst ≠ some nid) :=
  ⟨fun s oid => remove_node_edges_eq s oid,
   fun s nid hg hn => remove_node_nodes_eq s nid hg hn,
   fun s nid hg hn => remove_node_renderable s nid hg hn⟩

/-- Witness for C6 (amended) at the concrete sample graph. -/
theorem remove_node_non_cascading_witness :
    (process_operation sampleGraphState (.removeNode (some "A"))).ds.struct.edges
      = sampleGraphState.ds.struct.edges ∧
    (process_operation sampleGraphState (.removeNode (some "A"))).ds.struct.nodes
      = sampleGraphState.ds.struct.nodes.filter (fun n => ¬ n.id = "A") ∧
    ∀ e ∈ renderable_edges
        (process_operation sampleGraphState (.removeNode (some "A"))).ds.struct.nodes
        (process_operation sampleGraphState (.removeNode (some "A"))).ds.struct.edges,
      e.src ≠ some "A" ∧ e.dst ≠ some "A" :=
  ⟨remove_node_non_cascading.1 sampleGraphState (some "A"),
   remove_node_non_cascading.2.1 sampleGraphState "A" rfl (by decide),
   remove_node_non_cascading.2.2 sampleGraphState "A" rfl (by decide)⟩

/-! ### C7: moveElements self-inverse and symmetric-pair dedup -/


lemma collect_single (n : Int) (a b : Int) (hne : a ≠ b)
    (hb : 0 ≤ a ∧ a < n ∧ 0 ≤ b ∧ b < n) :
    collect_valid_pairs n [⟨some a, some b⟩] = [(a, b)] := by
  unfold collect_valid_pairs
  rw [List.foldl_cons, List.foldl_nil]
  unfold move_step
  dsimp only
  rw [if_neg hne, if_pos hb]
  simp

lemma move_step_symm (n : Int) (acc : List (Int × Int) × List (Int × Int)) (p : MovePair) :
    move_step n (move_step n acc p) ⟨p.toIndex, p.fromIndex⟩ = move_step n acc p := by
  rcases p with ⟨fi, ti⟩
  rcases fi with _ | x
  · rcases ti with _ | y <;> rfl
  · rcases ti with _ | y
    · rfl
    · unfold move_step
      dsimp only
      by_cases hxy : x = y
      · rw [if_pos hxy, if_pos hxy.symm]
      · rw [if_neg hxy]
        by_cases hb : 0 ≤ x ∧ x < n ∧ 0 ≤ y ∧ y < n
        · rw [if_pos hb]
          by_cases hk : (min x y, max x y) ∈ acc.1
          · rw [if_pos hk, if_neg (Ne.symm hxy),
              if_pos (by exact ⟨hb.2.2.1, hb.2.2.2, hb.1, hb.2.1⟩),
              min_comm y x, max_comm y x, if_pos hk]
          · rw [if_neg hk, if_neg (Ne.symm hxy),
              if_pos (by exact ⟨hb.2.2.1, hb.2.2.2, hb.1, hb.2.1⟩)]
            dsimp only
            rw [min_comm y x, max_comm y x,
              if_pos (List.mem_append.mpr (Or.inr (List.mem_singleton.mpr rfl)))]
        · rw [if_neg hb, if_neg (Ne.symm hxy),
            if_neg (fun hc => hb ⟨hc.2.2.1, hc.2.2.2, hc.1, hc.2.1⟩)]

lemma collect_symm_pair (n : Int) (p : MovePair) :
    collect_valid_pairs n [p, ⟨p.toIndex, p.fromIndex⟩] = collect_valid_pairs n [p] := by
  unfold collect_valid_pairs
  rw [List.foldl_cons, List.foldl_cons, List.foldl_nil, List.foldl_cons,
    List.foldl_nil, move_step_symm]

lemma move_elements_dedup_pair (s : RState) (p : MovePair) (ak sk : Option String) :
    process_operation s (.moveElements [p, ⟨p.toIndex, p.fromIndex⟩] ak sk)
      = process_operation s (.moveElements [p] ak sk) := by
  show animate_move_elements s _ ak sk = animate_move_elements s _ ak sk
  unfold animate_move_elements
  rw [collect_symm_pair]



lemma arrelem_rebuild (e : ArrElem) (i : Int) (h : e.index = i) :
    ({ index := i, value := e.value, state := e.state } : ArrElem) = e := by
  cases e
  simp_all

lemma list_set_same {α : Type} (l : List α) (i : Nat) (x : α)
    (h : l[i]? = some x) : l.set i x = l := by
  rcases List.getElem?_eq_some.mp h with ⟨hlt, hval⟩
  apply List.ext_getElem?
  intro j
  rcases eq_or_ne i j with rfl | hij
  · rw [List.getElem?_set_eq_of_lt x hlt, h]
  · rw [List.getElem?_set_ne hij]

lemma swap_at_involutive (arr : List ArrElem) (a b : Int)
    (hal : a.toNat < arr.length) (hbl : b.toNat < arr.length)
    (hne : a.toNat ≠ b.toNat)
    (hia : ∀ e, arr[a.toNat]? = some e → e.index = a)
    (hib : ∀ e, arr[b.toNat]? = some e → e.index = b) :
    swap_at (swap_at arr a b) a b = arr := by
  obtain ⟨ea, hea⟩ : ∃ e, arr[a.toNat]? = some e :=
    ⟨arr[a.toNat], List.getElem?_eq_getElem hal⟩
  obtain ⟨eb, heb⟩ : ∃ e, arr[b.toNat]? = some e :=
    ⟨arr[b.toNat], List.getElem?_eq_getElem hbl⟩
  have hea' : ea.index = a := hia ea hea
  have heb' : eb.index = b := hib eb heb
  unfold swap_at
  rw [hea, heb]
  dsimp only
  have h1a : ((arr.set a.toNat { eb with index := a }).set b.toNat
      { ea with index := b })[a.toNat]? = some { eb with index := a } := by
    rw [List.getElem?_set_ne (Ne.symm hne),
      List.getElem?_set_eq_of_lt _ hal]
  have h1b : ((arr.set a.toNat { eb with index := a }).set b.toNat
      { ea with index := b })[b.toNat]? = some { ea with index := b } := by
    rw [List.getElem?_set_eq_of_lt]
    rw [List.length_set]
    exact hbl
  rw [h1a, h1b]
  dsimp only
  rw [show ({ index := a, value := ea.value, state := ea.state } : ArrElem) = ea from
      arrelem_rebuild ea a hea',
    show ({ index := b, value := eb.value, state := eb.state } : ArrElem) = eb from
      arrelem_rebuild eb b heb']
  rw [List.set_comm { index := b, value := ea.value, state := ea.state } ea
      (arr.set a.toNat { index := a, value := eb.value, state := eb.state }) (Ne.symm hne)]
  rw [List.set_set]
  rw [List.set_set]
  rw [list_set_same arr a.toNat ea hea]
  rw [list_set_same arr b.toNat eb heb]



lemma move_elements_dataType (s : RState) (ps : List MovePair) (ak sk : Option String) :
    (animate_move_elements s ps ak sk).dataType = s.dataType := by
  unfold animate_move_elements
  repeat first | rfl | split | dsimp only

lemma move_elements_arr_eq (s : RState) (ps : List MovePair) (ak sk : Option String)
    (hdt : s.dataType = "array") (harr : s.ds.arr ≠ []) :
    (animate_move_elements s ps ak sk).ds.arr
      = (collect_valid_pairs (s.ds.arr.length : Int) ps).foldl
          (fun a p => swap_at a p.1 p.2) s.ds.arr := by
  unfold animate_move_elements
  rw [if_neg (by simp [hdt]), if_neg harr]
  dsimp only
  split
  · rename_i hv
    rw [hv]
    rfl
  · rfl

lemma move_single_swap_arr (s : RState) (a b : Int) (ak sk : Option String)
    (hdt : s.dataType = "array")
    (ha0 : 0 ≤ a) (hal : a < (s.ds.arr.length : Int))
    (hb0 : 0 ≤ b) (hbl : b < (s.ds.arr.length : Int)) (hne : a ≠ b)
    (hia : ∀ e, s.ds.arr[a.toNat]? = some e → e.index = a)
    (hib : ∀ e, s.ds.arr[b.toNat]? = some e → e.index = b) :
    (process_operation
        (process_operation s (.moveElements [⟨some a, some b⟩] ak sk))
        (.moveElements [⟨some a, some b⟩] ak sk)).ds.arr = s.ds.arr := by
  have harr : s.ds.arr ≠ [] := by
    intro h
    rw [h] at hal
    simp at hal
    omega
  have h1 : (process_operation s (.moveElements [⟨some a, some b⟩] ak sk)).ds.arr
      = swap_at s.ds.arr a b := by
    show (animate_move_elements s [⟨some a, some b⟩] ak sk).ds.arr = _
    rw [move_elements_arr_eq s _ ak sk hdt harr,
      collect_single _ a b hne ⟨ha0, hal, hb0, hbl⟩, List.foldl_cons, List.foldl_nil]
  set s1 := process_operation s (.moveElements [⟨some a, some b⟩] ak sk) with hs1
  have hdt1 : s1.dataType = "array" := by
    rw [hs1]
    show (animate_move_elements s [⟨some a, some b⟩] ak sk).dataType = _
    rw [move_elements_dataType, hdt]
  have hlen1 : s1.ds.arr.length = s.ds.arr.length := by
    rw [hs1]
    exact arr_length_process_operation s _
  have harr1 : s1.ds.arr ≠ [] := by
    intro h
    rw [h] at hlen1
    exact harr (List.length_eq_zero.mp hlen1.symm)
  have h2 : (process_operation s1 (.moveElements [⟨some a, some b⟩] ak sk)).ds.arr
      = swap_at s1.ds.arr a b := by
    show (animate_move_elements s1 [⟨some a, some b⟩] ak sk).ds.arr = _
    rw [move_elements_arr_eq s1 _ ak sk hdt1 harr1, hlen1,
      collect_single _ a b hne ⟨ha0, hal, hb0, hbl⟩, List.foldl_cons, List.foldl_nil]
  rw [h2, h1]
  exact swap_at_involutive s.ds.arr a b (by omega) (by omega) (by omega) hia hib



/-- C7: `moveElements` (and `shiftElements`, which reduces to it) applied to
a valid, distinct, in-bounds index pair is self-inverse — applying the same
pair swap twice returns the array to its prior element ordering (given the
element `index` fields match their positions, which the swap itself
maintains) — and within a single `moveElements` operation the symmetric
pairs `(a,b)` and `(b,a)` are deduplicated so only the first is applied. -/
theorem move_elements_self_inverse :
    (∀ (s : RState) (a b : Int) (ak sk : Option String),
       s.dataType = "array" →
       0 ≤ a → a < (s.ds.arr.length : Int) →
       0 ≤ b → b < (s.ds.arr.length : Int) → a ≠ b →
       (∀ e, s.ds.arr[a.toNat]? = some e → e.index = a) →
       (∀ e, s.ds.arr[b.toNat]? = some e → e.index = b) →
       (process_operation
           (process_operation s (.moveElements [⟨some a, some b⟩] ak sk))
           (.moveElements [⟨some a, some b⟩] ak sk)).ds.arr = s.ds.arr) ∧
    (∀ (s : RState) (p : MovePair) (ak sk : Option String),
       process_operation s (.moveElements [p, ⟨p.toIndex, p.fromIndex⟩] ak sk)
         = process_operation s (.moveElements [p] ak sk)) ∧
    (∀ (s : RState) (shifts : List MovePair) (ak sk : Option String),
       process_operation s (.shiftElements shifts ak sk)
         = process_operation s (.moveElements shifts ak sk)) :=
  ⟨fun s a b ak sk h1 h2 h3 h4 h5 h6 h7 h8 =>
     move_single_swap_arr s a b ak sk h1 h2 h3 h4 h5 h6 h7 h8,
   fun s p ak sk => move_elements_dedup_pair s p ak sk,
   fun _ _ _ _ => rfl⟩

theorem move_elements_self_inverse_witness :
    (process_operation
        (process_operation sampleArrayState (.moveElements [⟨some 0, some 2⟩] none none))
        (.moveElements [⟨some 0, some 2⟩] none none)).ds.arr = sampleArrayState.ds.arr ∧
    process_operation sampleArrayState
        (.moveElements [⟨some 0, some 2⟩, ⟨some 2, some 0⟩] none none)
      = process_operation sampleArrayState (.moveElements [⟨some 0, some 2⟩] none none) ∧
    process_operation sampleArrayState (.shiftElements [⟨some 1, some 2⟩] none none)
      = process_operation sampleArrayState (.moveElements [⟨some 1, some 2⟩] none none) :=
  ⟨move_elements_self_inverse.1 sampleArrayState 0 2 none none rfl (by decide)
     (by decide) (by decide) (by decide) (by decide)
     (by intro e he; injection he with h; rw [← h]; rfl)
     (by intro e he; injection he with h; rw [← h]; rfl),
   move_elements_self_inverse.2.1 sampleArrayState ⟨some 0, some 2⟩ none none,
   move_elements_self_inverse.2.2 sampleArrayState [⟨some 1, some 2⟩] none none⟩

/-! ### C8: reparent with no new parent promotes the node to root -/


lemma find_first_some {α : Type} (p : α → Prop) [DecidablePred p] (l : List α)
    (x : α) (h : find_first p l = some x) : x ∈ l ∧ p x := by
  induction l with
  | nil => cases h
  | cons y ys ih =>
    rw [find_first] at h
    split at h
    · cases h
      exact ⟨List.mem_cons_self _ _, by assumption⟩
    · rcases ih h with ⟨hm, hp⟩
      exact ⟨List.mem_cons_of_mem _ hm, hp⟩

lemma ids_map_cond (l : List Node) (k : String) (g : Node → Node)
    (hg : ∀ n, (g n).id = n.id) :
    ((l.map (fun n => if n.id = k then g n else n)).map Node.id) = l.map Node.id := by
  rw [List.map_map]
  apply List.map_congr_left
  intro n _
  by_cases h : n.id = k <;> simp [h, hg]

/-- C8: for a tree-variant state containing a node with id `nid` (with
well-formed unique node ids and duplicate-free children lists), `reparent`
with that `nid` and no `new_parent_id` makes the node the tree root: the
structure root becomes `nid`, the node's `parent` becomes empty, and the
children list of the node previously recorded as its parent no longer
contains `nid`. -/
theorem reparent_promotes_to_root (s : RState) (nid pid : String) (t : Node)
    (htree : s.dataType = "tree") (hnid : nid ≠ "")
    (hnodup : (s.ds.struct.nodes.map Node.id).Nodup)
    (hfind : find_first (fun n => n.id = nid) s.ds.struct.nodes = some t)
    (hpar : t.parent = some pid) (hpid : pid ≠ "")
    (hch : ∀ n ∈ s.ds.struct.nodes, n.id = pid → (n.children.getD []).Nodup) :
    (process_operation s (.reparent (some nid) none none)).ds.struct.root = some nid ∧
    (∀ n ∈ (process_operation s (.reparent (some nid) none none)).ds.struct.nodes,
       n.id = nid → n.parent = none) ∧
    (∀ n ∈ (process_operation s (.reparent (some nid) none none)).ds.struct.nodes,
       n.id = pid → nid ∉ n.children.getD []) := by
  have hstep : process_operation s (.reparent (some nid) none none) =
      { s with ds := { s.ds with struct := { s.ds.struct with
          nodes := update_first (fun n => n.id = nid)
            (fun n => { n with parent := none })
            (update_first (fun n => n.id = pid)
              (fun n => { n with children := n.children.map (fun cs => cs.erase nid) })
              s.ds.struct.nodes),
          root := some nid } } } := by
    show animate_reparent s (some nid) none none = _
    unfold animate_reparent
    rw [if_neg (by simp [htree]),
      if_neg (not_not_intro ((truthy_some_iff nid).mpr hnid))]
    simp only [Option.getD_some]
    rw [hfind]
    dsimp only
    rw [hpar]
    rw [if_pos ((truthy_some_iff pid).mpr hpid)]
    rfl
  rw [hstep]
  dsimp only
  have hnodup1 : ((s.ds.struct.nodes.map (fun n =>
      if n.id = pid then
        ({ n with children := Option.map (fun cs => cs.erase nid) n.children } : Node)
      else n)).map Node.id).Nodup := by
    rw [ids_map_cond s.ds.struct.nodes pid
      (fun n => { n with children := Option.map (fun cs => cs.erase nid) n.children })
      (fun n => rfl)]
    exact hnodup
  refine ⟨rfl, ?_, ?_⟩
  · rw [update_first_eq_map Node.id pid _ _ hnodup]
    rw [update_first_eq_map Node.id nid _ _ hnodup1]
    intro n hn hid
    rcases mem_map_cond hn with ⟨m, hm, rfl⟩
    by_cases hmn : m.id = nid
    · rw [if_pos hmn]
    · rw [if_neg hmn] at hid ⊢
      exact absurd hid hmn
  · rw [update_first_eq_map Node.id pid _ _ hnodup]
    rw [update_first_eq_map Node.id nid _ _ hnodup1]
    intro n hn hid
    rcases mem_map_cond hn with ⟨m, hm, rfl⟩
    rcases mem_map_cond hm with ⟨m0, hm0, rfl⟩
    by_cases hm0p : m0.id = pid
    · rw [if_pos hm0p] at hid ⊢
      have hgoal : nid ∉ (Option.map (fun cs => cs.erase nid) m0.children).getD [] := by
        rcases hc : m0.children with _ | cs
        · exact List.not_mem_nil nid
        · intro hmem
          have hnd : cs.Nodup := by
            have h3 := hch m0 hm0 hm0p
            rw [hc] at h3
            exact h3
          exact ((List.Nodup.mem_erase_iff hnd).mp hmem).1 rfl
      by_cases h2 : ({ m0 with
          children := Option.map (fun cs => cs.erase nid) m0.children } : Node).id = nid
      · rw [if_pos h2]
        exact hgoal
      · rw [if_neg h2]
        exact hgoal
    · rw [if_neg hm0p] at hid ⊢
      by_cases h2 : m0.id = nid
      · rw [if_pos h2] at hid ⊢
        exact absurd hid hm0p
      · rw [if_neg h2] at hid ⊢
        exact absurd hid hm0p

/-- Witness for C8 at the concrete sample tree (reparenting node `"a"`,
whose recorded parent is `"r"`). -/
theorem reparent_promotes_to_root_witness :
    (process_operation sampleTreeState
        (.reparent (some "a") none none)).ds.struct.root = some "a" ∧
    (∀ n ∈ (process_operation sampleTreeState
        (.reparent (some "a") none none)).ds.struct.nodes,
       n.id = "a" → n.parent = none) ∧
    (∀ n ∈ (process_operation sampleTreeState
        (.reparent (some "a") none none)).ds.struct.nodes,
       n.id = "r" → "a" ∉ n.children.getD []) :=
  reparent_promotes_to_root sampleTreeState "a" "r"
    ⟨"a", none, none, none, some "r", some ["b"]⟩
    rfl (by decide) (by decide) (by decide) rfl (by decide) (by decide)

/-! ### C9 and C10: auxiliary-list operations -/


lemma find_first_eq_none {α : Type} (p : α → Prop) [DecidablePred p]
    (l : List α) (h : ∀ x ∈ l, ¬ p x) : find_first p l = none := by
  induction l with
  | nil => rfl
  | cons y ys ih =>
    rw [find_first, if_neg (h y (List.mem_cons_self y ys))]
    exact ih (fun x hx => h x (List.mem_cons_of_mem y hx))

lemma update_first_eq_self_of_find {α : Type} (p : α → Prop) [DecidablePred p]
    (f : α → α) (l : List α) (x : α) (hf : find_first p l = some x)
    (hx : f x = x) : update_first p f l = l := by
  induction l with
  | nil => rfl
  | cons y ys ih =>
    rw [find_first] at hf
    rw [update_first]
    split
    · rw [if_pos (by assumption)] at hf
      cases hf
      rw [hx]
    · rw [if_neg (by assumption)] at hf
      rw [ih hf]

lemma aux_data_flat_eta (v : AuxView) (lst : List Val) (h : v.data = .flat lst) :
    ({ v with data := .flat lst } : AuxView) = v := by
  cases v
  simp_all

/-- C9: `popFromList` with an explicit `value` removes exactly one
occurrence (the first match) from the targeted auxiliary list regardless of
the other parameters, and is a no-op raising no error when the value is
absent; when multiple removal parameters are given the modes apply in
priority order — by-value, then by-(valid-)index, then head, then tail. -/
theorem pop_from_list_spec :
    (∀ (lst : List Val) (v : Val) (i : Option Int) (w : Option String),
       v ∈ lst → ∃ l₁ l₂, lst = l₁ ++ v :: l₂ ∧ v ∉ l₁ ∧
         pop_list (some v) i w lst = l₁ ++ l₂) ∧
    (∀ (s : RState) (vid w : Option String) (i : Option Int)
       (lk : Option String) (v : Val) (view : AuxView) (lst : List Val),
       find_aux_view s.auxViews vid = some view → view.data = .flat lst →
       v ∉ lst →
       animate_pop_from_list s vid w i (some v) lk = s) ∧
    (∀ (lst : List Val) (i : Int) (w : Option String),
       0 ≤ i → i < (lst.length : Int) →
       pop_list none (some i) w lst = lst.eraseIdx i.toNat) ∧
    (∀ (x : Val) (xs : List Val),
       pop_list none none (some "head") (x :: xs) = xs) ∧
    (∀ (lst : List Val), lst ≠ [] →
       pop_list none none (some "tail") lst = lst.dropLast) := by
  refine ⟨?_, ?_, ?_, ?_, ?_⟩
  · intro lst v i w hv
    rcases List.exists_erase_eq hv with ⟨l₁, l₂, hnm, hsplit, herase⟩
    exact ⟨l₁, l₂, hsplit, hnm, herase⟩
  · intro s vid w i lk v view lst hfind hdata hnm
    unfold animate_pop_from_list
    rw [show find_aux_view s.auxViews vid = some view from hfind]
    dsimp only
    rw [hdata]
    dsimp only
    rw [show pop_list (some v) i w lst = lst from List.erase_of_not_mem hnm]
    rw [update_aux_view, update_first_eq_self_of_find _ _ _ view hfind
      (aux_data_flat_eta view lst hdata)]
  · intro lst i w h0 hl
    unfold pop_list pop_by_pos
    dsimp only
    rw [if_pos (And.intro h0 hl)]
  · intro x xs
    rfl
  · intro lst hne
    cases lst with
    | nil => exact absurd rfl hne
    | cons x xs => rfl

/-- A state with one flat auxiliary list view, for the C9 witness. -/
def samplePopState : RState :=
  { dataType := "array",
    ds := { dtype := "array", arr := [⟨0, .int 1, none⟩] },
    auxViews := [{ view_id := some "q", vtype := "list", title := some "q",
                   data := .flat [.int 1, .int 2] }] }

theorem pop_from_list_spec_witness :
    (∃ l₁ l₂, [Val.int 1, Val.int 2, Val.int 3, Val.int 2]
        = l₁ ++ Val.int 2 :: l₂ ∧ Val.int 2 ∉ l₁ ∧
        pop_list (some (.int 2)) none none
          [Val.int 1, Val.int 2, Val.int 3, Val.int 2] = l₁ ++ l₂) ∧
    animate_pop_from_list samplePopState (some "q") none none
      (some (.int 9)) none = samplePopState ∧
    pop_list none (some 1) (some "head") [Val.int 1, Val.int 2]
      = [Val.int 1, Val.int 2].eraseIdx (1 : Int).toNat ∧
    pop_list none none (some "head") (Val.int 1 :: [Val.int 2]) = [Val.int 2] ∧
    pop_list none none (some "tail") [Val.int 1, Val.int 2]
      = [Val.int 1, Val.int 2].dropLast :=
  ⟨pop_from_list_spec.1 [Val.int 1, Val.int 2, Val.int 3, Val.int 2]
     (.int 2) none none (by decide),
   pop_from_list_spec.2.1 samplePopState (some "q") none none none (.int 9)
     { view_id := some "q", vtype := "list", title := some "q",
       data := .flat [.int 1, .int 2] } [.int 1, .int 2] rfl rfl (by decide),
   pop_from_list_spec.2.2.1 [Val.int 1, Val.int 2] 1 (some "head")
     (by decide) (by decide),
   pop_from_list_spec.2.2.2.1 (Val.int 1) [Val.int 2],
   pop_from_list_spec.2.2.2.2 [Val.int 1, Val.int 2] (by decide)⟩



/-- C10: `appendToList` with a `view_id` matching no existing auxiliary view
does not ignore the operation — it creates a new auxiliary view of type
`list` with that `view_id` (title set to the id) and appends the value to
its data list — whereas `popFromList` and `clearList` with an unknown
`view_id` are no-ops. -/
theorem append_to_list_creates_unknown_view :
    ∀ (s : RState) (vid : Option String) (v : Val) (lk : Option String)
      (w : Option String) (i : Option Int) (pv : Option Val) (lk2 : Option String),
      (∀ view ∈ s.auxViews, ¬ view.view_id = vid) →
      animate_append_to_list s vid v lk =
        { s with auxViews := s.auxViews ++
            [{ view_id := vid, vtype := "list", title := vid,
               data := .flat [v] }] } ∧
      animate_pop_from_list s vid w i pv lk2 = s ∧
      animate_clear_list s vid = s := by
  intro s vid v lk w i pv lk2 hno
  have hfind : find_aux_view s.auxViews vid = none :=
    find_first_eq_none _ _ hno
  refine ⟨?_, ?_, ?_⟩
  · unfold animate_append_to_list
    rw [hfind]
  · unfold animate_pop_from_list
    rw [hfind]
  · unfold animate_clear_list
    rw [hfind]

theorem append_to_list_creates_unknown_view_witness :
    animate_append_to_list sampleArrayState (some "stack") (.int 5) none =
      { sampleArrayState with auxViews := sampleArrayState.auxViews ++
          [{ view_id := some "stack", vtype := "list", title := some "stack",
             data := .flat [.int 5] }] } ∧
    animate_pop_from_list sampleArrayState (some "stack") none none none none
      = sampleArrayState ∧
    animate_clear_list sampleArrayState (some "stack") = sampleArrayState :=
  append_to_list_creates_unknown_view sampleArrayState (some "stack") (.int 5)
    none none none none none (by decide)

end SVL
